import Mathlib

/-!
Verification of the fast-win federated-learning core (`src/shared/agent_utils.py`,
`src/shared/agent_utils3.py`) against its natural-language specification.

Numeric tensors are embedded as `List ℚ` (vectors) and `List (List ℚ)` (row-major
matrices); torch's random normal draws are abstracted as an oracle
`entries : ℕ → ℕ → ℚ` giving the value sampled for a given (row, column) slot, and
`torch.empty`'s uninitialized storage as an arbitrary `garbage` row oracle.
Fallible operations return `Except String`.
-/

/-- Zero vector of length `n`, embedding `torch.zeros(n)`. -/
def zeroVec (n : ℕ) : List ℚ := List.replicate n 0

/-- Elementwise sum of two vectors (`+` on torch tensors). -/
def vecAdd (a b : List ℚ) : List ℚ := List.zipWith (· + ·) a b

/-- Elementwise difference of two vectors (`-` on torch tensors). -/
def vecSub (a b : List ℚ) : List ℚ := List.zipWith (· - ·) a b

/-- Scalar multiple of a vector (`tensor * scalar`, `tensor.mul_(scalar)`,
and `tensor / scalar` via the reciprocal). -/
def vecScale (c : ℚ) (v : List ℚ) : List ℚ := v.map (fun x => c * x)

/-- Dot product of two vectors. -/
def dotProd (a b : List ℚ) : ℚ := (List.zipWith (· * ·) a b).sum

/-- Matrix-vector product `G @ w` for a row-major `G`. -/
def matVec (G : List (List ℚ)) (w : List ℚ) : List ℚ := G.map (fun row => dotProd row w)

/-- Transposed matrix-vector product `G.T @ delta` for a row-major `d × fw`
matrix `G`: the sum over rows `Σ_i delta_i • G_i`, a vector of width `fw`. -/
def matTvecW (fw : ℕ) : List (List ℚ) → List ℚ → List ℚ
  | r :: G, x :: delta => vecAdd (vecScale x r) (matTvecW fw G delta)
  | _, _ => zeroVec fw

/-- Embedding of `get_approx_optimal_weights` from `src/shared/agent_utils.py`:
`w = torch.zeros(f)` then, for `i in range(0, d, chunk_size)` with
`end_idx = min(i + chunk_size, d)`, accumulate
`w += G[i:end_idx, :].T @ delta[i:end_idx] / f`.
The Python `range(0, d, c)` is the start list `List.range' 0 ((d + c - 1) / c) c`. -/
def get_approx_optimal_weights (G : List (List ℚ)) (delta : List ℚ) (f c : ℕ) : List ℚ :=
  (List.range' 0 ((G.length + c - 1) / c) c).foldl
    (fun w i =>
      vecAdd w (vecScale (1 / (f : ℚ))
        (matTvecW f ((G.drop i).take (min (i + c) G.length - i))
                    ((delta.drop i).take (min (i + c) G.length - i)))))
    (zeroVec f)

/-- Modelled from the spec words for the refinement claim about
`approximateWeights(G, delta, f)`: it "computes `Gᵀ·delta / f`" in one piece,
with no chunking. -/
def approximateWeightsSpec (G : List (List ℚ)) (delta : List ℚ) (f : ℕ) : List ℚ :=
  vecScale (1 / (f : ℚ)) (matTvecW f G delta)

/-- Rows `lo, lo+1, …, hi-1` of the random sample: the block written by one
`torch.randn(end_idx - i, f)` call, with the draw for absolute row `r`,
column `j` given by the oracle `entries r j`. -/
def sampleRows (entries : ℕ → ℕ → ℚ) (f lo hi : ℕ) : List (List ℚ) :=
  (List.range' lo (hi - lo)).map (fun r => (List.range f).map (entries r))

/-- Embedding of `generate_gaussian_matrix` from `src/shared/agent_utils.py`:
`G = torch.empty(d, f)` (the `garbage` oracle supplies the uninitialized rows),
then for `i in range(0, d, chunk_size)` the slice assignment
`G[i:end_idx, :] = torch.randn(end_idx - i, f)` with `end_idx = min(i + chunk_size, d)`. -/
def generate_gaussian_matrix (entries : ℕ → ℕ → ℚ) (garbage : ℕ → List ℚ)
    (d f c : ℕ) : List (List ℚ) :=
  (List.range' 0 ((d + c - 1) / c) c).foldl
    (fun G i => G.take i ++ sampleRows entries f i (min (i + c) d) ++ G.drop (min (i + c) d))
    ((List.range d).map garbage)

/-- Embedding of `generate_gaussian_matrix` from `src/shared/agent_utils3.py`:
`G = torch.randn(d, f//2)` — note the column count is `f / 2`, not `f`. -/
def generate_gaussian_matrix3 (entries : ℕ → ℕ → ℚ) (d f : ℕ) : List (List ℚ) :=
  (List.range d).map (fun r => (List.range (f / 2)).map (entries r))

/-- Embedding of `get_approx_optimal_weights` from `src/shared/agent_utils3.py`:
`w = G.T @ delta / f` in one matmul; the width of `G.T @ delta` is the intrinsic
column count of `G` (its first row's length), while the divisor is the `f`
argument — which at every call site defaults to the configured total width. -/
def get_approx_optimal_weights3 (G : List (List ℚ)) (delta : List ℚ) (f : ℕ) : List ℚ :=
  vecScale (1 / (f : ℚ)) (matTvecW (G.headD []).length G delta)

/-- One trainable parameter of a model: a flat value buffer (the embedding keeps
each buffer as its flattened element list), the `requires_grad` flag, and an
optional gradient buffer. -/
structure Param where
  data : List ℚ
  requiresGrad : Bool
  grad : Option (List ℚ)
deriving DecidableEq

/-- Embedding of `get_flatten_model_param`: concatenation of the value buffers of
the `requires_grad` parameters, in declaration order. -/
def getFlattenParam (ps : List Param) : List ℚ :=
  ((ps.filter (fun p => p.requiresGrad)).map (fun p => p.data)).flatten

/-- Total element count of the trainable parameters (the model's `D`). -/
def sumNumel (ps : List Param) : ℕ :=
  ((ps.filter (fun p => p.requiresGrad)).map (fun p => p.data.length)).sum

/-- Embedding of `set_flatten_model_back`: walk the parameters, skipping frozen
ones; for each trainable `p` take the slice `x[start : start + p.numel()]`,
require it to hold exactly `p.numel()` elements (the `.view(p.shape)` shape
check — its failure is the spec's `FlattenMismatch`), write it into the value
buffer, zero the gradient buffer when present, and advance `start`. -/
def setFlattenBack : List Param → List ℚ → ℕ → Except String (List Param)
  | [], _, _ => .ok []
  | p :: ps, x, start =>
    if p.requiresGrad then
      if ((x.drop start).take p.data.length).length = p.data.length then
        match setFlattenBack ps x (start + p.data.length) with
        | .ok qs =>
            .ok ({ p with
                    data := (x.drop start).take p.data.length
                    grad := p.grad.map (fun g => zeroVec g.length) } :: qs)
        | .error e => .error e
      else .error "FlattenMismatch"
    else
      match setFlattenBack ps x start with
      | .ok qs => .ok (p :: qs)
      | .error e => .error e

/-- Embedding of `Metric.avg`: `sum / n`, raising Python's `ZeroDivisionError`
when no update has happened. -/
def metricAvg (sum : ℚ) (n : ℕ) : Except String ℚ :=
  if n = 0 then .error "DivideByZero" else .ok (sum / (n : ℚ))

/-- Agent-side training state for `Agent` in `src/shared/agent_utils.py`.
The resumable generator `self.data_generator` becomes the explicit `cursor`
(the batches not yet consumed this epoch); the running `Metric` objects become
their (sum, count) pairs; the model replica, optimizer and loss are abstracted
behind the type `M` and the `step` oracle passed to the training functions.
(`self.batch_idx` is written in `__init__`/`reset_epoch` but never read, so it
is not tracked.) -/
structure AgentState (M B : Type) where
  loader : List B
  cursor : List B
  epoch : ℕ
  lossSum : ℚ
  lossN : ℕ
  accSum : ℚ
  accN : ℕ
  model : M
  modelGrad : List ℚ

/-- Embedding of `Agent.reset_epoch`: re-arm the batch cursor from the loader,
increment the epoch counter, and replace both running metrics with fresh ones. -/
def resetEpoch {M B : Type} (s : AgentState M B) : AgentState M B :=
  { s with
      cursor := s.loader
      epoch := s.epoch + 1
      lossSum := 0
      lossN := 0
      accSum := 0
      accN := 0 }

/-- Loop body of `Agent.train_k_step_fedavg`: for each of the `k` requested
steps, ask the cursor for a batch; on `StopIteration` compute the epoch's
running averages (possibly dividing by zero), reset the epoch, and return;
otherwise run one training step through the oracle
`step : model → batch → (model, loss, acc, flatGrad)`, accumulate the flat
gradient into `modelGrad`, and update the running metrics. After `k` completed
steps return the running averages. -/
def goTrain {M B : Type} (step : M → B → M × ℚ × ℚ × List ℚ) :
    ℕ → AgentState M B → Except String ((ℚ × ℚ) × AgentState M B)
  | 0, s => do
      let l ← metricAvg s.lossSum s.lossN
      let a ← metricAvg s.accSum s.accN
      return ((l, a), s)
  | k + 1, s =>
      match s.cursor with
      | [] => do
          let l ← metricAvg s.lossSum s.lossN
          let a ← metricAvg s.accSum s.accN
          return ((l, a), resetEpoch s)
      | b :: rest =>
          goTrain step k
            { s with
                cursor := rest
                model := (step s.model b).1
                modelGrad := vecAdd s.modelGrad (step s.model b).2.2.2
                lossSum := s.lossSum + (step s.model b).2.1
                lossN := s.lossN + 1
                accSum := s.accSum + (step s.model b).2.2.1
                accN := s.accN + 1 }

/-- Embedding of `Agent.train_k_step_fedavg`: zero the accumulated-gradient
buffer (`torch.zeros_like` of the flattened model, length `d`), then run the
`k`-step loop. -/
def train_k_step_fedavg {M B : Type} (step : M → B → M × ℚ × ℚ × List ℚ)
    (d k : ℕ) (s : AgentState M B) : Except String ((ℚ × ℚ) × AgentState M B) :=
  goTrain step k { s with modelGrad := zeroVec d }

/-- The (loss, acc) pairs produced by running the step oracle from model `m`
over a batch list, in order. -/
def runSteps {M B : Type} (step : M → B → M × ℚ × ℚ × List ℚ) :
    M → List B → List (ℚ × ℚ)
  | _, [] => []
  | m, b :: bs => ((step m b).2.1, (step m b).2.2.1) :: runSteps step (step m b).1 bs

/-- The model obtained after stepping through a batch list. -/
def endModel {M B : Type} (step : M → B → M × ℚ × ℚ × List ℚ) : M → List B → M
  | m, [] => m
  | m, b :: bs => endModel step (step m b).1 bs

/-- The accumulated gradient after stepping through a batch list, starting from
buffer `g`. -/
def accGrads {M B : Type} (step : M → B → M × ℚ × ℚ × List ℚ) :
    M → List ℚ → List B → List ℚ
  | _, g, [] => g
  | m, g, b :: bs => accGrads step (step m b).1 (vecAdd g (step m b).2.2.2) bs

/-- Server state for `Server` in `src/shared/agent_utils.py`: the global
flattened parameter vector, the live global model, and the round's projection
matrix. -/
structure SrvState where
  flatten_params : List ℚ
  modelP : List Param
  G : List (List ℚ)
deriving DecidableEq

/-- The client loop of `Server.avg_clients` (`src/shared/agent_utils.py`): for
each client in input order, `Gw = G @ get_approx_optimal_weights(G, delta)`
(chunk size defaulting to 1000, divisor defaulting to the configured `f`), then
`flatten_params -= Gw.mul_(lr / len(clients))`. -/
def fedavgFold (lr : ℚ) (f : ℕ) (G : List (List ℚ)) (x0 : List ℚ)
    (clients : List (List ℚ)) : List ℚ :=
  clients.foldl
    (fun x delta =>
      vecSub x (vecScale (lr / (clients.length : ℚ))
        (matVec G (get_approx_optimal_weights G delta f 1000))))
    x0

/-- Embedding of `Server.avg_clients` (`src/shared/agent_utils.py`): when the
configured algorithm is `"fedavg"`, fold every client's accumulated gradient
into the flattened parameter vector and write the result back into the live
model; in every case regenerate the projection matrix from fresh randomness
(`entries`/`garbage` oracles), sized by the current model's flattened length,
with the default chunk size 1. Clients are passed as their `model_grad`
vectors. -/
def avgClients (algo : String) (lr : ℚ) (f : ℕ) (entries : ℕ → ℕ → ℚ)
    (garbage : ℕ → List ℚ) (s : SrvState) (clients : List (List ℚ)) :
    Except String SrvState :=
  if algo = "fedavg" then
    match setFlattenBack s.modelP (fedavgFold lr f s.G s.flatten_params clients) 0 with
    | .ok m =>
        .ok { flatten_params := fedavgFold lr f s.G s.flatten_params clients
              modelP := m
              G := generate_gaussian_matrix entries garbage (getFlattenParam m).length f 1 }
    | .error e => .error e
  else
    .ok { flatten_params := s.flatten_params
          modelP := s.modelP
          G := generate_gaussian_matrix entries garbage (getFlattenParam s.modelP).length f 1 }

/-- Modelled from the spec words for the aggregation step: subtract
`(learningRate / clientCount) * (G @ (Gᵀ @ delta / f))` from the running
flattened vector, with the unchunked `approximateWeights`. -/
def specClientStep (lr : ℚ) (n f : ℕ) (G : List (List ℚ)) (x delta : List ℚ) : List ℚ :=
  vecSub x (vecScale (lr / (n : ℚ)) (matVec G (approximateWeightsSpec G delta f)))

/-- Server state for the split-device `Server` in `src/shared/agent_utils3.py`:
two projection matrices, one per compute context. -/
structure SrvState3 where
  flatten_params : List ℚ
  modelP : List Param
  G1 : List (List ℚ)
  G2 : List (List ℚ)
deriving DecidableEq

/-- Per-client reconstruction in `Server.avg_clients`
(`src/shared/agent_utils3.py`): `w1 = get_approx_optimal_weights(G1, delta)`
and `w2 = get_approx_optimal_weights(G2, delta)` (the divisor defaulting to the
configured total `f` in both calls), `Gw_1 = G1 @ w_1`, `Gw_2 = G2 @ w_2`,
and `Gw = Gw_1 + Gw_2` after migrating the second term. -/
def clientUpdate3 (F : ℕ) (G1 G2 : List (List ℚ)) (delta : List ℚ) : List ℚ :=
  vecAdd (matVec G1 (get_approx_optimal_weights3 G1 delta F))
         (matVec G2 (get_approx_optimal_weights3 G2 delta F))

/-- The client loop of the split-device `Server.avg_clients`:
`flatten_params -= Gw_on_cpu.mul_(lr / len(clients))` per client in order. -/
def fedavgFold3 (lr : ℚ) (F : ℕ) (G1 G2 : List (List ℚ)) (x0 : List ℚ)
    (clients : List (List ℚ)) : List ℚ :=
  clients.foldl
    (fun x delta =>
      vecSub x (vecScale (lr / (clients.length : ℚ)) (clientUpdate3 F G1 G2 delta)))
    x0

/-- Embedding of the split-device `Server.avg_clients`
(`src/shared/agent_utils3.py`): the `"fedavg"` fold followed by the write-back,
then regeneration of both half-width matrices from fresh randomness. -/
def avgClients3 (algo : String) (lr : ℚ) (F : ℕ) (ent1 ent2 : ℕ → ℕ → ℚ)
    (s : SrvState3) (clients : List (List ℚ)) : Except String SrvState3 :=
  if algo = "fedavg" then
    match setFlattenBack s.modelP (fedavgFold3 lr F s.G1 s.G2 s.flatten_params clients) 0 with
    | .ok m =>
        .ok { flatten_params := fedavgFold3 lr F s.G1 s.G2 s.flatten_params clients
              modelP := m
              G1 := generate_gaussian_matrix3 ent1 (getFlattenParam m).length F
              G2 := generate_gaussian_matrix3 ent2 (getFlattenParam m).length F }
    | .error e => .error e
  else
    .ok { flatten_params := s.flatten_params
          modelP := s.modelP
          G1 := generate_gaussian_matrix3 ent1 (getFlattenParam s.modelP).length F
          G2 := generate_gaussian_matrix3 ent2 (getFlattenParam s.modelP).length F }

/-- Helper for `splitOnChar`: accumulate the current component (reversed) while
scanning. -/
def splitOnCharAux (sep : Char) : List Char → List Char → List (List Char)
  | [], acc => [acc.reverse]
  | c :: cs, acc =>
      if c = sep then acc.reverse :: splitOnCharAux sep cs []
      else splitOnCharAux sep cs (c :: acc)

/-- Python's `str.split(sep)` for a single-character separator, over strings
embedded as character lists. -/
def splitOnChar (sep : Char) (s : List Char) : List (List Char) :=
  splitOnCharAux sep s []

/-- Embedding of `Server.determine_sampling` (identical in both files), with
strings as character lists: when the type string contains `"_"`, draw
`r = random.random()` and return `"uniform"` if `r < q`, else component `[1]`
of the split; otherwise return the type unchanged. The drawn uniform number is
passed in as `r`. (The index-1 access cannot miss when `"_"` occurs in the
string, so the `getD` default is unreachable.) -/
def determine_sampling (r q : ℚ) (sampling_type : List Char) : List Char :=
  if sampling_type.contains '_' then
    if r < q then "uniform".toList else (splitOnChar '_' sampling_type).getD 1 []
  else sampling_type

theorem vecAdd_assoc : ∀ a b c : List ℚ, vecAdd (vecAdd a b) c = vecAdd a (vecAdd b c)
  | [], _, _ => rfl
  | _ :: _, [], _ => rfl
  | _ :: _, _ :: _, [] => rfl
  | x :: as, y :: bs, z :: cs => by
      simpa [vecAdd, add_assoc] using vecAdd_assoc as bs cs

theorem length_vecAdd (a b : List ℚ) : (vecAdd a b).length = min a.length b.length := by
  simp [vecAdd]

theorem vecAdd_zeroVec : ∀ (v : List ℚ) (n : ℕ), v.length ≤ n → vecAdd v (zeroVec n) = v
  | [], _, _ => rfl
  | x :: xs, n + 1, h => by
      have ih := vecAdd_zeroVec xs n (by simpa using h)
      simp only [vecAdd, zeroVec, List.replicate_succ, List.zipWith_cons_cons, add_zero] at ih ⊢
      rw [ih]

theorem zeroVec_vecAdd : ∀ (v : List ℚ) (n : ℕ), v.length ≤ n → vecAdd (zeroVec n) v = v
  | [], _, _ => by simp [vecAdd]
  | x :: xs, n + 1, h => by
      have ih := zeroVec_vecAdd xs n (by simpa using h)
      simp only [vecAdd, zeroVec, List.replicate_succ, List.zipWith_cons_cons, zero_add] at ih ⊢
      rw [ih]

theorem length_vecScale (c : ℚ) (v : List ℚ) : (vecScale c v).length = v.length := by
  simp [vecScale]

theorem vecScale_vecAdd (c : ℚ) : ∀ a b : List ℚ,
    vecScale c (vecAdd a b) = vecAdd (vecScale c a) (vecScale c b)
  | [], _ => rfl
  | _ :: _, [] => rfl
  | x :: as, y :: bs => by
      simpa [vecAdd, vecScale, mul_add] using vecScale_vecAdd c as bs

theorem vecScale_zeroVec (c : ℚ) (n : ℕ) : vecScale c (zeroVec n) = zeroVec n := by
  simp [vecScale, zeroVec, List.map_replicate]

theorem matTvecW_length_le : ∀ (fw : ℕ) (G : List (List ℚ)) (delta : List ℚ),
    (matTvecW fw G delta).length ≤ fw
  | fw, [], _ => by simp [matTvecW, zeroVec]
  | fw, _ :: _, [] => by simp [matTvecW, zeroVec]
  | fw, r :: G, x :: delta => by
      have := matTvecW_length_le fw G delta
      simp [matTvecW, length_vecAdd]
      omega

theorem matTvecW_length : ∀ (fw : ℕ) (G : List (List ℚ)) (delta : List ℚ),
    (∀ r ∈ G, r.length = fw) → (matTvecW fw G delta).length = fw
  | fw, [], _, _ => by simp [matTvecW, zeroVec]
  | fw, _ :: _, [], _ => by simp [matTvecW, zeroVec]
  | fw, r :: G, x :: delta, h => by
      have hr : r.length = fw := h r (by simp)
      have := matTvecW_length fw G delta (fun q hq => h q (by simp [hq]))
      simp [matTvecW, length_vecAdd, length_vecScale, hr, this]

theorem matTvecW_append : ∀ (fw : ℕ) (G1 : List (List ℚ)) (d1 : List ℚ)
    (G2 : List (List ℚ)) (d2 : List ℚ), G1.length = d1.length →
    matTvecW fw (G1 ++ G2) (d1 ++ d2) = vecAdd (matTvecW fw G1 d1) (matTvecW fw G2 d2)
  | fw, [], [], G2, d2, _ => by
      simpa [matTvecW] using (zeroVec_vecAdd (matTvecW fw G2 d2) fw (matTvecW_length_le fw G2 d2)).symm
  | fw, r :: G1, x :: d1, G2, d2, h => by
      have ih := matTvecW_append fw G1 d1 G2 d2 (by simpa using h)
      simp only [List.cons_append, matTvecW, List.append_eq, ih]
      rw [vecAdd_assoc]

theorem matTvecW_split (fw : ℕ) (k : ℕ) (G : List (List ℚ)) (delta : List ℚ)
    (h : G.length = delta.length) :
    matTvecW fw G delta
      = vecAdd (matTvecW fw (G.take k) (delta.take k)) (matTvecW fw (G.drop k) (delta.drop k)) := by
  have hlen : (G.take k).length = (delta.take k).length := by
    simp [List.length_take, h]
  calc matTvecW fw G delta
      = matTvecW fw (G.take k ++ G.drop k) (delta.take k ++ delta.drop k) := by
        rw [List.take_append_drop, List.take_append_drop]
    _ = vecAdd (matTvecW fw (G.take k) (delta.take k)) (matTvecW fw (G.drop k) (delta.drop k)) :=
        matTvecW_append fw _ _ _ _ hlen

theorem ceil_div_mul_ge (d c : ℕ) (hc : 1 ≤ c) : d ≤ ((d + c - 1) / c) * c := by
  have h1 := Nat.div_add_mod (d + c - 1) c
  have h2 : (d + c - 1) % c < c := Nat.mod_lt _ (by omega)
  rw [Nat.mul_comm]
  omega

theorem gaow_aux (G : List (List ℚ)) (delta : List ℚ) (f c : ℕ)
    (hG : ∀ r ∈ G, r.length = f) (hd : delta.length = G.length) :
    ∀ (n i : ℕ) (w : List ℚ), w.length = f → G.length ≤ i + n * c →
    (List.range' i n c).foldl
      (fun w i =>
        vecAdd w (vecScale (1 / (f : ℚ))
          (matTvecW f ((G.drop i).take (min (i + c) G.length - i))
                      ((delta.drop i).take (min (i + c) G.length - i)))))
      w
    = vecAdd w (vecScale (1 / (f : ℚ)) (matTvecW f (G.drop i) (delta.drop i)))
  | 0, i, w, hw, hcov => by
      have hG0 : G.drop i = [] := List.drop_eq_nil_of_le (by omega)
      have hd0 : delta.drop i = [] := List.drop_eq_nil_of_le (by omega)
      simp [hG0, hd0, matTvecW, vecScale_zeroVec, vecAdd_zeroVec w f (le_of_eq hw)]
  | n + 1, i, w, hw, hcov => by
      have hchunk : ∀ r ∈ (G.drop i).take (min (i + c) G.length - i), r.length = f :=
        fun r hr => hG r (List.drop_subset _ _ (List.take_subset _ _ hr))
      have hwi : (vecAdd w (vecScale (1 / (f : ℚ))
          (matTvecW f ((G.drop i).take (min (i + c) G.length - i))
                      ((delta.drop i).take (min (i + c) G.length - i))))).length = f := by
        rw [length_vecAdd, length_vecScale, hw, matTvecW_length f _ _ hchunk]
        simp
      rw [Nat.succ_mul] at hcov
      have ih := gaow_aux G delta f c hG hd n (i + c) _ hwi (by omega)
      have hsplit := matTvecW_split f (min (i + c) G.length - i) (G.drop i) (delta.drop i)
        (by simp [hd])
      have hdrops : matTvecW f ((G.drop i).drop (min (i + c) G.length - i))
            ((delta.drop i).drop (min (i + c) G.length - i))
          = matTvecW f (G.drop (i + c)) (delta.drop (i + c)) := by
        rcases le_or_lt (i + c) G.length with hle | hlt
        · have he : min (i + c) G.length = i + c := min_eq_left hle
          rw [he, List.drop_drop, List.drop_drop]
          congr 2 <;> omega
        · have he : min (i + c) G.length = G.length := min_eq_right (le_of_lt hlt)
          rw [List.drop_drop, List.drop_drop]
          have g1 : G.drop (i + (min (i + c) G.length - i)) = [] :=
            List.drop_eq_nil_of_le (by omega)
          have g2 : delta.drop (i + (min (i + c) G.length - i)) = [] :=
            List.drop_eq_nil_of_le (by omega)
          have g3 : G.drop (i + c) = [] := List.drop_eq_nil_of_le (by omega)
          have g4 : delta.drop (i + c) = [] := List.drop_eq_nil_of_le (by omega)
          rw [g1, g2, g3, g4]
      have hrange : List.range' i (n + 1) c = i :: List.range' (i + c) n c := rfl
      rw [hrange, List.foldl_cons, ih, vecAdd_assoc, ← vecScale_vecAdd, ← hdrops, ← hsplit]

theorem gaow_eq_spec (G : List (List ℚ)) (delta : List ℚ) (f c : ℕ)
    (hG : ∀ r ∈ G, r.length = f) (hd : delta.length = G.length) (hc : 1 ≤ c) :
    get_approx_optimal_weights G delta f c = approximateWeightsSpec G delta f := by
  have hcov : G.length ≤ 0 + ((G.length + c - 1) / c) * c := by
    have := ceil_div_mul_ge G.length c hc
    omega
  have h0 : (zeroVec f).length = f := by simp [zeroVec]
  have haux := gaow_aux G delta f c hG hd ((G.length + c - 1) / c) 0 (zeroVec f) h0 hcov
  unfold get_approx_optimal_weights approximateWeightsSpec
  rw [haux]
  simp only [List.drop_zero]
  exact zeroVec_vecAdd _ f (by rw [length_vecScale]; exact matTvecW_length_le f G delta)

/-- C3: for every d×f matrix `G`, length-d `delta`, sketch width `f > 0` and
chunk size ≥ 1, the chunked accumulation in `get_approx_optimal_weights`
returns exactly `Gᵀ @ delta / f`, i.e. it equals the unchunked definition
regardless of the chunk size. -/
theorem chunked_weights_eq_unchunked (G : List (List ℚ)) (delta : List ℚ) (f c : ℕ)
    (hG : ∀ r ∈ G, r.length = f) (hd : delta.length = G.length)
    (hf : 1 ≤ f) (hc : 1 ≤ c) :
    get_approx_optimal_weights G delta f c = approximateWeightsSpec G delta f :=
  gaow_eq_spec G delta f c hG hd hc

/-- Witness for C3 at a concrete 3×2 matrix and chunk size 2. -/
theorem chunked_weights_eq_unchunked_witness :
    get_approx_optimal_weights [[1, 2], [3, 4], [5, 6]] [7, 8, 9] 2 2
      = approximateWeightsSpec [[1, 2], [3, 4], [5, 6]] [7, 8, 9] 2 :=
  chunked_weights_eq_unchunked [[1, 2], [3, 4], [5, 6]] [7, 8, 9] 2 2
    (by decide) (by decide) (by decide) (by decide)

/-- C2 counterexample: with total sketch width `F = 2` split as `f1 = f2 = 1`,
`G1 = [[1]]` and `delta = [1]`, the code computes `w1 = G1ᵀ @ delta / F = [1/2]`,
not the claimed `approximateWeights(G1, delta, f1) = G1ᵀ @ delta / f1 = [1]`. -/
theorem split_weights_divisor_counterexample :
    get_approx_optimal_weights3 [[1]] [1] 2 ≠ approximateWeightsSpec [[1]] [1] 1 := by
  simp [get_approx_optimal_weights3, approximateWeightsSpec, matTvecW, vecScale, vecAdd, zeroVec]

/-- C2 as amended: both split weight vectors are divided by the configured
total sketch width `F` (the `f` default argument), not by the per-device
widths `f1`, `f2`; the reconstruction is still `Gw = G1 @ w1 + G2 @ w2`. -/
theorem split_weights_total_divisor (G1 G2 : List (List ℚ)) (delta : List ℚ)
    (F f1 f2 : ℕ) (h1 : G1 ≠ []) (h2 : G2 ≠ [])
    (hw1 : ∀ r ∈ G1, r.length = f1) (hw2 : ∀ r ∈ G2, r.length = f2)
    (hF : f1 + f2 = F) :
    get_approx_optimal_weights3 G1 delta F = vecScale (1 / (F : ℚ)) (matTvecW f1 G1 delta) ∧
    get_approx_optimal_weights3 G2 delta F = vecScale (1 / (F : ℚ)) (matTvecW f2 G2 delta) ∧
    clientUpdate3 F G1 G2 delta
      = vecAdd (matVec G1 (get_approx_optimal_weights3 G1 delta F))
               (matVec G2 (get_approx_optimal_weights3 G2 delta F)) := by
  rcases G1 with _ | ⟨r1, t1⟩
  · exact absurd rfl h1
  rcases G2 with _ | ⟨r2, t2⟩
  · exact absurd rfl h2
  have e1 : r1.length = f1 := hw1 r1 (by simp)
  have e2 : r2.length = f2 := hw2 r2 (by simp)
  refine ⟨?_, ?_, rfl⟩
  · unfold get_approx_optimal_weights3
    rw [List.headD_cons, e1]
  · unfold get_approx_optimal_weights3
    rw [List.headD_cons, e2]

/-- Witness for the amended C2 at `F = 3`, `G1 = [[1]]` (f1 = 1),
`G2 = [[2, 3]]` (f2 = 2), `delta = [1]`. -/
theorem split_weights_total_divisor_witness :
    get_approx_optimal_weights3 [[1]] [1] 3 = vecScale (1 / ((3 : ℕ) : ℚ)) (matTvecW 1 [[1]] [1]) ∧
    get_approx_optimal_weights3 [[2, 3]] [1] 3
      = vecScale (1 / ((3 : ℕ) : ℚ)) (matTvecW 2 [[2, 3]] [1]) ∧
    clientUpdate3 3 [[1]] [[2, 3]] [1]
      = vecAdd (matVec [[1]] (get_approx_optimal_weights3 [[1]] [1] 3))
               (matVec [[2, 3]] (get_approx_optimal_weights3 [[2, 3]] [1] 3)) :=
  split_weights_total_divisor [[1]] [[2, 3]] [1] 3 1 2
    (by decide) (by decide) (by decide) (by decide) (by decide)

/-- C10: for every compound sampling type (one containing the separator) and
every draw `r` below `q`, `determine_sampling` returns the literal `"uniform"`
regardless of the string's first component; in particular, for
`"powd_random"` it returns a scheme name that appears in neither component. -/
theorem determine_sampling_compound_uniform (r q : ℚ) (s : List Char)
    (hs : s.contains '_' = true) (hrq : r < q) :
    determine_sampling r q s = "uniform".toList ∧
    determine_sampling r q "powd_random".toList = "uniform".toList ∧
    "uniform".toList ∉ splitOnChar '_' "powd_random".toList := by
  refine ⟨?_, ?_, by decide⟩
  · unfold determine_sampling
    rw [hs]
    simp [hrq]
  · have hc : "powd_random".toList.contains '_' = true := by decide
    unfold determine_sampling
    rw [hc]
    simp [hrq]

/-- Witness for C10 at `r = 0 < q = 1` and the compound type `"powd_random"`,
whose first component is not `"uniform"`. -/
theorem determine_sampling_compound_uniform_witness :
    determine_sampling 0 1 "powd_random".toList = "uniform".toList ∧
    determine_sampling 0 1 "powd_random".toList = "uniform".toList ∧
    "uniform".toList ∉ splitOnChar '_' "powd_random".toList :=
  determine_sampling_compound_uniform 0 1 "powd_random".toList (by decide) (by decide)

theorem getFlattenParam_cons_true (p : Param) (ps : List Param)
    (hp : p.requiresGrad = true) :
    getFlattenParam (p :: ps) = p.data ++ getFlattenParam ps := by
  simp [getFlattenParam, List.filter_cons, hp]

theorem getFlattenParam_cons_false (p : Param) (ps : List Param)
    (hp : ¬ p.requiresGrad = true) :
    getFlattenParam (p :: ps) = getFlattenParam ps := by
  simp [getFlattenParam, List.filter_cons, hp]

theorem sumNumel_cons_true (p : Param) (ps : List Param)
    (hp : p.requiresGrad = true) :
    sumNumel (p :: ps) = p.data.length + sumNumel ps := by
  simp [sumNumel, List.filter_cons, hp]

theorem sumNumel_cons_false (p : Param) (ps : List Param)
    (hp : ¬ p.requiresGrad = true) :
    sumNumel (p :: ps) = sumNumel ps := by
  simp [sumNumel, List.filter_cons, hp]

theorem length_getFlattenParam (ps : List Param) :
    (getFlattenParam ps).length = sumNumel ps := by
  simp [getFlattenParam, sumNumel, Function.comp_def]

theorem setFlattenBack_roundtrip : ∀ (ps : List Param) (x : List ℚ) (start : ℕ)
    (rest : List ℚ), x.drop start = getFlattenParam ps ++ rest →
    ∃ qs, setFlattenBack ps x start = .ok qs ∧
      qs.map (fun p => p.data) = ps.map (fun p => p.data)
  | [], x, start, rest, h => ⟨[], rfl, rfl⟩
  | p :: ps, x, start, rest, h => by
    by_cases hp : p.requiresGrad = true
    · rw [getFlattenParam_cons_true p ps hp, List.append_assoc] at h
      have hex : (x.drop start).take p.data.length = p.data := by
        rw [h]
        exact List.take_left p.data _
      have hdrop : x.drop (start + p.data.length) = getFlattenParam ps ++ rest := by
        have hdd : x.drop (start + p.data.length) = (x.drop start).drop p.data.length := by
          rw [List.drop_drop, Nat.add_comm]
        rw [hdd, h]
        exact List.drop_left p.data _
      obtain ⟨qs, hqs, hdata⟩ := setFlattenBack_roundtrip ps x (start + p.data.length) rest hdrop
      refine ⟨{ p with
                  data := (x.drop start).take p.data.length
                  grad := p.grad.map (fun g => zeroVec g.length) } :: qs, ?_, ?_⟩
      · simp only [setFlattenBack]
        rw [if_pos hp, if_pos (by rw [hex]), hqs]
      · simp only [List.map_cons, hdata, hex]
    · rw [getFlattenParam_cons_false p ps hp] at h
      obtain ⟨qs, hqs, hdata⟩ := setFlattenBack_roundtrip ps x start rest h
      refine ⟨p :: qs, ?_, ?_⟩
      · simp only [setFlattenBack]
        rw [if_neg hp, hqs]
      · simp only [List.map_cons, hdata]

theorem setFlattenBack_short : ∀ (ps : List Param) (x : List ℚ) (start : ℕ),
    x.length - start < sumNumel ps → setFlattenBack ps x start = .error "FlattenMismatch"
  | [], x, start, h => by
      simp [sumNumel] at h
  | p :: ps, x, start, h => by
    by_cases hp : p.requiresGrad = true
    · rw [sumNumel_cons_true p ps hp] at h
      by_cases hfit : p.data.length ≤ x.length - start
      · have hex : ((x.drop start).take p.data.length).length = p.data.length := by
          simp only [List.length_take, List.length_drop]
          omega
        have ih := setFlattenBack_short ps x (start + p.data.length) (by omega)
        simp only [setFlattenBack]
        rw [if_pos hp, if_pos hex, ih]
      · have hex : ¬ ((x.drop start).take p.data.length).length = p.data.length := by
          simp only [List.length_take, List.length_drop]
          omega
        simp only [setFlattenBack]
        rw [if_pos hp, if_neg hex]
    · rw [sumNumel_cons_false p ps hp] at h
      have ih := setFlattenBack_short ps x start h
      simp only [setFlattenBack]
      rw [if_neg hp, ih]

theorem setFlattenBack_isOk : ∀ (ps : List Param) (x : List ℚ) (start : ℕ),
    sumNumel ps ≤ x.length - start → ∃ qs, setFlattenBack ps x start = .ok qs
  | [], x, start, _ => ⟨[], rfl⟩
  | p :: ps, x, start, h => by
    by_cases hp : p.requiresGrad = true
    · rw [sumNumel_cons_true p ps hp] at h
      have hex : ((x.drop start).take p.data.length).length = p.data.length := by
        simp only [List.length_take, List.length_drop]
        omega
      obtain ⟨qs, hqs⟩ := setFlattenBack_isOk ps x (start + p.data.length) (by omega)
      refine ⟨{ p with
                  data := (x.drop start).take p.data.length
                  grad := p.grad.map (fun g => zeroVec g.length) } :: qs, ?_⟩
      simp only [setFlattenBack]
      rw [if_pos hp, if_pos hex, hqs]
    · rw [sumNumel_cons_false p ps hp] at h
      obtain ⟨qs, hqs⟩ := setFlattenBack_isOk ps x start h
      refine ⟨p :: qs, ?_⟩
      simp only [setFlattenBack]
      rw [if_neg hp, hqs]

/-- C4: unflattening a model's own flattened parameter vector succeeds and
leaves every parameter's value buffer (in particular every non-frozen one)
unchanged — `set_flatten_model_back(model, get_flatten_model_param(model))` is
an exact round trip on parameter values. -/
theorem flatten_unflatten_roundtrip (ps : List Param) :
    ∃ qs, setFlattenBack ps (getFlattenParam ps) 0 = .ok qs ∧
      qs.map (fun p => p.data) = ps.map (fun p => p.data) :=
  setFlattenBack_roundtrip ps (getFlattenParam ps) 0 []
    (by simp)

/-- C7: for a model with trainable parameter count `D ≥ 1`, unflattening a
vector of length `D - 1` fails with `FlattenMismatch` instead of silently
truncating or padding. -/
theorem unflatten_short_vector_fails (ps : List Param) (x : List ℚ)
    (hD : 1 ≤ sumNumel ps) (hx : x.length = sumNumel ps - 1) :
    setFlattenBack ps x 0 = .error "FlattenMismatch" :=
  setFlattenBack_short ps x 0 (by omega)

/-- Witness for C7: a single 2-element trainable parameter and a 1-element
vector. -/
theorem unflatten_short_vector_fails_witness :
    setFlattenBack [⟨[0, 0], true, none⟩] [5] 0 = .error "FlattenMismatch" :=
  unflatten_short_vector_fails [⟨[0, 0], true, none⟩] [5] (by decide) (by decide)

theorem goTrain_exhaust {M B : Type} (step : M → B → M × ℚ × ℚ × List ℚ) :
    ∀ (bs : List B) (k : ℕ) (s : AgentState M B), s.cursor = bs → bs.length < k →
    goTrain step k s = (do
      let l ← metricAvg (s.lossSum + ((runSteps step s.model bs).map Prod.fst).sum)
                (s.lossN + bs.length)
      let a ← metricAvg (s.accSum + ((runSteps step s.model bs).map Prod.snd).sum)
                (s.accN + bs.length)
      return ((l, a), { loader := s.loader
                        cursor := s.loader
                        epoch := s.epoch + 1
                        lossSum := 0
                        lossN := 0
                        accSum := 0
                        accN := 0
                        model := endModel step s.model bs
                        modelGrad := accGrads step s.model s.modelGrad bs }))
  | [], k, s, hc, hk => by
      obtain ⟨k, rfl⟩ : ∃ m, k = m + 1 := ⟨k - 1, by omega⟩
      simp [goTrain, hc, runSteps, endModel, accGrads, resetEpoch]
  | b :: rest, k, s, hc, hk => by
      obtain ⟨k, rfl⟩ : ∃ m, k = m + 1 := ⟨k - 1, by omega⟩
      have ih := goTrain_exhaust step rest k
        { s with
            cursor := rest
            model := (step s.model b).1
            modelGrad := vecAdd s.modelGrad (step s.model b).2.2.2
            lossSum := s.lossSum + (step s.model b).2.1
            lossN := s.lossN + 1
            accSum := s.accSum + (step s.model b).2.2.1
            accN := s.accN + 1 } rfl (by simp at hk; omega)
      simp only [goTrain, hc]
      rw [ih]
      simp [runSteps, endModel, accGrads, add_assoc, add_comm, add_left_comm]

/-- C5: with a loader of exactly `N ≥ 1` batches and `k = N + 2`, starting from
a fresh epoch, one `train_k_step_fedavg` call increments the epoch counter by
exactly one, returns loss/accuracy averages over exactly the `N` processed
batches, and leaves the cursor re-armed at batch 0 with fresh running metrics
for the next call. -/
theorem train_epoch_boundary {M B : Type} (step : M → B → M × ℚ × ℚ × List ℚ)
    (d N : ℕ) (s : AgentState M B) (hcur : s.cursor = s.loader)
    (hN : s.loader.length = N) (h1 : 1 ≤ N) (hl0 : s.lossN = 0) (ha0 : s.accN = 0)
    (hls : s.lossSum = 0) (has : s.accSum = 0) :
    train_k_step_fedavg step d (N + 2) s
      = .ok ((((runSteps step s.model s.loader).map Prod.fst).sum / (N : ℚ),
              ((runSteps step s.model s.loader).map Prod.snd).sum / (N : ℚ)),
             { loader := s.loader
               cursor := s.loader
               epoch := s.epoch + 1
               lossSum := 0
               lossN := 0
               accSum := 0
               accN := 0
               model := endModel step s.model s.loader
               modelGrad := accGrads step s.model (zeroVec d) s.loader }) := by
  unfold train_k_step_fedavg
  have hx := goTrain_exhaust step s.loader (N + 2) { s with modelGrad := zeroVec d }
    (by simpa using hcur) (by omega)
  rw [hx]
  have hne : ¬ (N = 0) := by omega
  simp [metricAvg, hN, hl0, ha0, hls, has, hne]
  rfl

/-- Witness for C5: one batch (`N = 1`), `k = 3`, a fresh agent. -/
theorem train_epoch_boundary_witness :
    train_k_step_fedavg (fun (m : Unit) (b : ℕ) => (m, (b : ℚ), (b : ℚ) + 1, [1])) 1 (1 + 2)
      ⟨[3], [3], 0, 0, 0, 0, 0, (), []⟩
      = .ok
        ((((runSteps (fun (m : Unit) (b : ℕ) => (m, (b : ℚ), (b : ℚ) + 1, [1])) ()
              [3]).map Prod.fst).sum / ((1 : ℕ) : ℚ),
          ((runSteps (fun (m : Unit) (b : ℕ) => (m, (b : ℚ), (b : ℚ) + 1, [1])) ()
              [3]).map Prod.snd).sum / ((1 : ℕ) : ℚ)),
         ⟨[3], [3], 1, 0, 0, 0, 0, (),
          accGrads (fun (m : Unit) (b : ℕ) => (m, (b : ℚ), (b : ℚ) + 1, [1])) ()
            (zeroVec 1) [3]⟩) :=
  train_epoch_boundary (fun (m : Unit) (b : ℕ) => (m, (b : ℚ), (b : ℚ) + 1, [1])) 1 1
    ⟨[3], [3], 0, 0, 0, 0, 0, (), []⟩ rfl rfl (by decide) rfl rfl rfl rfl

/-- C8 counterexample: an agent whose loader is empty (so the cursor is
exhausted on the very first requested batch with no processed batches this
epoch) makes `train_k_step_fedavg` raise `DivideByZero` from `Metric.avg`
instead of returning averages, and the cursor is not re-armed. -/
theorem train_exhaustion_empty_error :
    train_k_step_fedavg (fun (m : Unit) (b : Unit) => (m, 0, 0, [])) 0 1
      (⟨[], [], 0, 0, 0, 0, 0, (), []⟩ : AgentState Unit Unit) = .error "DivideByZero" := rfl

/-- C8 as amended: whenever the cursor becomes exhausted during a
`train_k_step_fedavg` call (`k` exceeds the remaining batches) **and at least
one batch has been recorded this epoch** (earlier in the epoch or within this
call), the exhaustion is absorbed: the call returns the running averages
instead of an error and re-arms the cursor so the next call starts from batch
0; with zero recorded batches (empty loader, fresh epoch) `Metric.avg` divides
by zero instead. -/
theorem train_exhaustion_absorbed {M B : Type} (step : M → B → M × ℚ × ℚ × List ℚ)
    (d k : ℕ) (s : AgentState M B) (hk : s.cursor.length < k)
    (hacc : s.accN = s.lossN) (hpos : 1 ≤ s.lossN + s.cursor.length) :
    train_k_step_fedavg step d k s
      = .ok (((s.lossSum + ((runSteps step s.model s.cursor).map Prod.fst).sum)
                / ((s.lossN + s.cursor.length : ℕ) : ℚ),
              (s.accSum + ((runSteps step s.model s.cursor).map Prod.snd).sum)
                / ((s.accN + s.cursor.length : ℕ) : ℚ)),
             { loader := s.loader
               cursor := s.loader
               epoch := s.epoch + 1
               lossSum := 0
               lossN := 0
               accSum := 0
               accN := 0
               model := endModel step s.model s.cursor
               modelGrad := accGrads step s.model (zeroVec d) s.cursor }) := by
  unfold train_k_step_fedavg
  have hx := goTrain_exhaust step s.cursor k { s with modelGrad := zeroVec d } rfl hk
  rw [hx]
  have h1 : ¬ (s.lossN + s.cursor.length = 0) := by omega
  have h2 : ¬ (s.accN + s.cursor.length = 0) := by omega
  simp [metricAvg, h1, h2]
  rfl

/-- Witness for the amended C8: one batch already recorded this epoch, empty
cursor, `k = 2`. -/
theorem train_exhaustion_absorbed_witness :
    train_k_step_fedavg (fun (m : Unit) (b : ℕ) => (m, (b : ℚ), (b : ℚ), [])) 0 2
      (⟨[7], [], 3, 4, 1, 5, 1, (), []⟩ : AgentState Unit ℕ)
      = .ok (((4 + ((runSteps (fun (m : Unit) (b : ℕ) => (m, (b : ℚ), (b : ℚ), [])) ()
                 []).map Prod.fst).sum) / ((1 + 0 : ℕ) : ℚ),
              (5 + ((runSteps (fun (m : Unit) (b : ℕ) => (m, (b : ℚ), (b : ℚ), [])) ()
                 []).map Prod.snd).sum) / ((1 + 0 : ℕ) : ℚ)),
             ⟨[7], [7], 4, 0, 0, 0, 0, (),
              accGrads (fun (m : Unit) (b : ℕ) => (m, (b : ℚ), (b : ℚ), [])) ()
                (zeroVec 0) []⟩) :=
  train_exhaustion_absorbed (fun (m : Unit) (b : ℕ) => (m, (b : ℚ), (b : ℚ), [])) 0 2
    ⟨[7], [], 3, 4, 1, 5, 1, (), []⟩ (by decide) rfl (by decide)

theorem length_sampleRows (entries : ℕ → ℕ → ℚ) (f lo hi : ℕ) :
    (sampleRows entries f lo hi).length = hi - lo := by
  simp [sampleRows]

theorem range'_add_append : ∀ (a m n : ℕ),
    List.range' a m ++ List.range' (a + m) n = List.range' a (m + n)
  | a, 0, n => by simp
  | a, m + 1, n => by
      have ih := range'_add_append (a + 1) m n
      have h1 : a + (m + 1) = a + 1 + m := by omega
      have h2 : m + 1 + n = m + n + 1 := by omega
      rw [h2, List.range'_succ, List.range'_succ, List.cons_append, h1, ih]

theorem sampleRows_append (entries : ℕ → ℕ → ℚ) (f lo mid hi : ℕ)
    (h1 : lo ≤ mid) (h2 : mid ≤ hi) :
    sampleRows entries f lo mid ++ sampleRows entries f mid hi = sampleRows entries f lo hi := by
  unfold sampleRows
  rw [← List.map_append]
  congr 1
  have h3 := range'_add_append lo (mid - lo) (hi - mid)
  rw [show lo + (mid - lo) = mid by omega] at h3
  rw [h3, show mid - lo + (hi - mid) = hi - lo by omega]

theorem gen_fill_aux (entries : ℕ → ℕ → ℚ) (garbage : ℕ → List ℚ) (d f c : ℕ)
    (hc : 1 ≤ c) :
    ∀ (n i : ℕ), d ≤ i + n * c →
    (List.range' i n c).foldl
      (fun G j => G.take j ++ sampleRows entries f j (min (j + c) d) ++ G.drop (min (j + c) d))
      (sampleRows entries f 0 (min i d) ++ ((List.range d).map garbage).drop (min i d))
    = sampleRows entries f 0 d
  | 0, i, hcov => by
      have hmin : min i d = d := by omega
      rw [hmin, List.drop_eq_nil_of_le (by simp), List.append_nil]
      simp
  | n + 1, i, hcov => by
      rw [Nat.succ_mul] at hcov
      have hstep :
          (sampleRows entries f 0 (min i d)
              ++ ((List.range d).map garbage).drop (min i d)).take i
            ++ sampleRows entries f i (min (i + c) d)
            ++ (sampleRows entries f 0 (min i d)
              ++ ((List.range d).map garbage).drop (min i d)).drop (min (i + c) d)
          = sampleRows entries f 0 (min (i + c) d)
            ++ ((List.range d).map garbage).drop (min (i + c) d) := by
        rcases le_or_lt i d with hid | hid
        · have hmi : min i d = i := by omega
          have hie : i ≤ min (i + c) d := by omega
          rw [hmi]
          have hAi : (sampleRows entries f 0 i).length = i := by
            rw [length_sampleRows]
            omega
          have htake : (sampleRows entries f 0 i
              ++ ((List.range d).map garbage).drop i).take i = sampleRows entries f 0 i :=
            List.take_left' hAi
          have hdropE : (sampleRows entries f 0 i
                ++ ((List.range d).map garbage).drop i).drop (min (i + c) d)
              = ((List.range d).map garbage).drop (min (i + c) d) := by
            rw [show min (i + c) d = i + (min (i + c) d - i) by omega, ← List.drop_drop,
                List.drop_left' hAi, List.drop_drop,
                show i + (min (i + c) d - i) = min (i + c) d by omega]
          rw [htake, hdropE, sampleRows_append entries f 0 i (min (i + c) d) (Nat.zero_le i) hie]
        · have hmi : min i d = d := by omega
          have he : min (i + c) d = d := by omega
          have hB : ((List.range d).map garbage).drop (min i d) = [] := by
            rw [hmi]
            exact List.drop_eq_nil_of_le (by simp)
          have hS : sampleRows entries f i (min (i + c) d) = [] := by
            rw [he]
            simp [sampleRows, show d - i = 0 by omega]
          have hA : (sampleRows entries f 0 d).length = d := by
            rw [length_sampleRows]
            omega
          rw [hB, List.append_nil, hS, he, hmi,
              List.take_of_length_le (by rw [hA]; omega),
              List.drop_eq_nil_of_le (by rw [hA]),
              List.drop_eq_nil_of_le (by simp)]
          simp
      simp only [List.range'_succ, List.foldl_cons]
      rw [hstep]
      exact gen_fill_aux entries garbage d f c hc n (i + c) (by omega)

theorem generate_gaussian_matrix_filled (entries : ℕ → ℕ → ℚ) (garbage : ℕ → List ℚ)
    (d f c : ℕ) (hc : 1 ≤ c) :
    generate_gaussian_matrix entries garbage d f c = sampleRows entries f 0 d := by
  unfold generate_gaussian_matrix
  have hcov : d ≤ 0 + ((d + c - 1) / c) * c := by
    have := ceil_div_mul_ge d c hc
    omega
  have hmain := gen_fill_aux entries garbage d f c hc ((d + c - 1) / c) 0 hcov
  have h0 : sampleRows entries f 0 (min 0 d) ++ ((List.range d).map garbage).drop (min 0 d)
      = (List.range d).map garbage := by
    simp [sampleRows]
  rw [h0] at hmain
  exact hmain

/-- C6 counterexample: the split-variant generator called as
`generateMatrix(d = 1, f = 2)` yields a row of length `2 / 2 = 1`, not a 1×2
matrix as the claim's shape `d×f` requires. -/
theorem generate_matrix3_shape_counterexample :
    ¬ (∀ row ∈ generate_gaussian_matrix3 (fun _ _ => (0 : ℚ)) 1 2, row.length = 2) := by
  decide

/-- C6 as amended: for all `d, f ≥ 1`, the chunked generator of
`agent_utils.py` yields exactly the d×f matrix of sampled rows — every row
block is written, nothing of the uninitialized buffer survives, for every
chunk size ≥ 1 — while the split-variant generator of `agent_utils3.py`
yields shape d×(f/2), not d×f. -/
theorem generate_matrix_shape (entries : ℕ → ℕ → ℚ) (garbage : ℕ → List ℚ)
    (d f c : ℕ) (hd : 1 ≤ d) (hf : 1 ≤ f) (hc : 1 ≤ c) :
    generate_gaussian_matrix entries garbage d f c
        = (List.range d).map (fun r => (List.range f).map (entries r)) ∧
    (generate_gaussian_matrix3 entries d f).length = d ∧
    (∀ row ∈ generate_gaussian_matrix3 entries d f, row.length = f / 2) := by
  refine ⟨?_, ?_, ?_⟩
  · rw [generate_gaussian_matrix_filled entries garbage d f c hc]
    simp [sampleRows, List.range_eq_range']
  · simp [generate_gaussian_matrix3]
  · intro row hrow
    simp only [generate_gaussian_matrix3, List.mem_map] at hrow
    obtain ⟨r, hr, hrw⟩ := hrow
    rw [← hrw]
    simp

/-- Witness for the amended C6 at `d = 2`, `f = 3`, chunk size 2. -/
theorem generate_matrix_shape_witness :
    generate_gaussian_matrix (fun _ _ => (0 : ℚ)) (fun _ => []) 2 3 2
        = (List.range 2).map (fun r => (List.range 3).map (fun _ => (0 : ℚ))) ∧
    (generate_gaussian_matrix3 (fun _ _ => (0 : ℚ)) 2 3).length = 2 ∧
    (∀ row ∈ generate_gaussian_matrix3 (fun _ _ => (0 : ℚ)) 2 3, row.length = 3 / 2) :=
  generate_matrix_shape (fun _ _ => (0 : ℚ)) (fun _ => []) 2 3 2
    (by decide) (by decide) (by decide)

theorem length_vecSub (a b : List ℚ) : (vecSub a b).length = min a.length b.length := by
  simp [vecSub]

theorem length_matVec (G : List (List ℚ)) (w : List ℚ) : (matVec G w).length = G.length := by
  simp [matVec]

theorem foldl_congr_mem {α β : Type} : ∀ (l : List α) (g h : β → α → β) (b : β),
    (∀ a ∈ l, ∀ x, g x a = h x a) → l.foldl g b = l.foldl h b
  | [], _, _, _, _ => rfl
  | a :: l, g, h, b, hgh => by
      rw [List.foldl_cons, List.foldl_cons, hgh a (by simp) b]
      exact foldl_congr_mem l g h _ (fun a2 ha2 x => hgh a2 (by simp [ha2]) x)

theorem foldl_preserves_length {α : Type} (d : ℕ) :
    ∀ (l : List α) (g : List ℚ → α → List ℚ) (b : List ℚ),
    (∀ a ∈ l, ∀ x : List ℚ, x.length = d → (g x a).length = d) →
    b.length = d → (l.foldl g b).length = d
  | [], _, _, _, hb => hb
  | a :: l, g, b, hg, hb => by
      rw [List.foldl_cons]
      exact foldl_preserves_length d l g _ (fun a2 ha2 => hg a2 (by simp [ha2]))
        (hg a (by simp) b hb)

/-- C1: with the configured algorithm `"fedavg"` and a non-empty client list,
`avg_clients` folds the clients strictly in input order, subtracting
`(lr / clientCount) * (G @ (Gᵀ @ delta / f))` from the running flattened
vector for each client's accumulated gradient `delta` against the round's
fixed matrix `G`; the updated vector is then unflattened into the live global
model (and a fresh matrix is drawn for the next round). -/
theorem avg_clients_fedavg_spec (lr : ℚ) (f d : ℕ) (entries : ℕ → ℕ → ℚ)
    (garbage : ℕ → List ℚ) (s : SrvState) (clients : List (List ℚ))
    (hG : ∀ r ∈ s.G, r.length = f) (hGd : s.G.length = d)
    (hfp : s.flatten_params.length = d) (hcl : ∀ delta ∈ clients, delta.length = d)
    (hf : 1 ≤ f) (hne : clients ≠ []) (hmp : sumNumel s.modelP ≤ d) :
    ∃ m, setFlattenBack s.modelP
          (clients.foldl (specClientStep lr clients.length f s.G) s.flatten_params) 0
          = .ok m ∧
      avgClients "fedavg" lr f entries garbage s clients
        = .ok { flatten_params :=
                  clients.foldl (specClientStep lr clients.length f s.G) s.flatten_params
                modelP := m
                G := generate_gaussian_matrix entries garbage (getFlattenParam m).length f 1 } := by
  have hfold : fedavgFold lr f s.G s.flatten_params clients
      = clients.foldl (specClientStep lr clients.length f s.G) s.flatten_params := by
    unfold fedavgFold
    refine foldl_congr_mem clients _ _ s.flatten_params (fun delta hdl x => ?_)
    rw [gaow_eq_spec s.G delta f 1000 hG (by rw [hcl delta hdl, hGd]) (by omega)]
    rfl
  have hlen : (clients.foldl (specClientStep lr clients.length f s.G)
      s.flatten_params).length = d := by
    refine foldl_preserves_length d clients _ _ (fun delta hdl x hx => ?_) hfp
    unfold specClientStep
    rw [length_vecSub, hx, length_vecScale, length_matVec, hGd]
    simp
  obtain ⟨m, hm2⟩ := setFlattenBack_isOk s.modelP
    (clients.foldl (specClientStep lr clients.length f s.G) s.flatten_params) 0
    (by rw [hlen]; omega)
  refine ⟨m, hm2, ?_⟩
  have havg : avgClients "fedavg" lr f entries garbage s clients
      = match setFlattenBack s.modelP (fedavgFold lr f s.G s.flatten_params clients) 0 with
        | .ok m2 =>
            .ok { flatten_params := fedavgFold lr f s.G s.flatten_params clients
                  modelP := m2
                  G := generate_gaussian_matrix entries garbage
                        (getFlattenParam m2).length f 1 }
        | .error e => .error e := rfl
  rw [havg, hfold, hm2]

/-- Witness for C1: one client, a 1×1 matrix, a single 1-element parameter. -/
theorem avg_clients_fedavg_spec_witness :
    ∃ m, setFlattenBack [⟨[1], true, none⟩]
          ([[(2 : ℚ)]].foldl (specClientStep 1 [[(2 : ℚ)]].length 1 [[1]]) [(1 : ℚ)]) 0
          = .ok m ∧
      avgClients "fedavg" 1 1 (fun _ _ => 0) (fun _ => [])
          ⟨[(1 : ℚ)], [⟨[1], true, none⟩], [[1]]⟩ [[(2 : ℚ)]]
        = .ok { flatten_params :=
                  [[(2 : ℚ)]].foldl (specClientStep 1 [[(2 : ℚ)]].length 1 [[1]]) [(1 : ℚ)]
                modelP := m
                G := generate_gaussian_matrix (fun _ _ => 0) (fun _ => [])
                      (getFlattenParam m).length 1 1 } :=
  avg_clients_fedavg_spec 1 1 1 (fun _ _ => 0) (fun _ => [])
    ⟨[(1 : ℚ)], [⟨[1], true, none⟩], [[1]]⟩ [[(2 : ℚ)]]
    (by decide) (by decide) (by decide) (by decide) (by decide) (by decide) (by decide)

/-- C9: when the configured algorithm is not `"fedavg"`, `avg_clients` leaves
the flattened parameter vector and the live model unchanged (a no-op apart
from matrix regeneration); and in every successful call — averaging or not, in
both the single- and split-device variants — the projection matrix/matrices in
the resulting state are freshly generated from the round's new randomness,
never the input state's matrices. -/
theorem avg_clients_noop_and_regen (algo : String) (lr : ℚ) (f : ℕ)
    (entries ent1 ent2 : ℕ → ℕ → ℚ) (garbage : ℕ → List ℚ)
    (s : SrvState) (s3 : SrvState3) (clients : List (List ℚ)) :
    (algo ≠ "fedavg" →
      avgClients algo lr f entries garbage s clients
        = .ok { flatten_params := s.flatten_params
                modelP := s.modelP
                G := generate_gaussian_matrix entries garbage
                      (getFlattenParam s.modelP).length f 1 }) ∧
    (∀ t, avgClients algo lr f entries garbage s clients = .ok t →
      t.G = generate_gaussian_matrix entries garbage (getFlattenParam t.modelP).length f 1) ∧
    (algo ≠ "fedavg" →
      avgClients3 algo lr f ent1 ent2 s3 clients
        = .ok { flatten_params := s3.flatten_params
                modelP := s3.modelP
                G1 := generate_gaussian_matrix3 ent1 (getFlattenParam s3.modelP).length f
                G2 := generate_gaussian_matrix3 ent2 (getFlattenParam s3.modelP).length f }) ∧
    (∀ t, avgClients3 algo lr f ent1 ent2 s3 clients = .ok t →
      t.G1 = generate_gaussian_matrix3 ent1 (getFlattenParam t.modelP).length f ∧
      t.G2 = generate_gaussian_matrix3 ent2 (getFlattenParam t.modelP).length f) := by
  refine ⟨?_, ?_, ?_, ?_⟩
  · intro hna
    unfold avgClients
    rw [if_neg hna]
  · intro t ht
    by_cases ha : algo = "fedavg"
    · unfold avgClients at ht
      rw [if_pos ha] at ht
      split at ht
      · injection ht with ht2
        subst ht2
        rfl
      · exact absurd ht (by simp)
    · unfold avgClients at ht
      rw [if_neg ha] at ht
      injection ht with ht2
      subst ht2
      rfl
  · intro hna
    unfold avgClients3
    rw [if_neg hna]
  · intro t ht
    by_cases ha : algo = "fedavg"
    · unfold avgClients3 at ht
      rw [if_pos ha] at ht
      split at ht
      · injection ht with ht2
        subst ht2
        exact ⟨rfl, rfl⟩
      · exact absurd ht (by simp)
    · unfold avgClients3 at ht
      rw [if_neg ha] at ht
      injection ht with ht2
      subst ht2
      exact ⟨rfl, rfl⟩

/-- Witness for C9 at the algorithm string `"none"` and empty server states. -/
theorem avg_clients_noop_and_regen_witness :
    (avgClients "none" 1 1 (fun _ _ => 0) (fun _ => []) ⟨[], [], []⟩ []
        = .ok { flatten_params := ([] : List ℚ)
                modelP := ([] : List Param)
                G := generate_gaussian_matrix (fun _ _ => 0) (fun _ => [])
                      (getFlattenParam []).length 1 1 }) ∧
    ((⟨[], [], generate_gaussian_matrix (fun _ _ => 0) (fun _ => [])
          (getFlattenParam []).length 1 1⟩ : SrvState).G
        = generate_gaussian_matrix (fun _ _ => 0) (fun _ => [])
            (getFlattenParam (⟨[], [], generate_gaussian_matrix (fun _ _ => 0) (fun _ => [])
              (getFlattenParam []).length 1 1⟩ : SrvState).modelP).length 1 1) ∧
    (avgClients3 "none" 1 1 (fun _ _ => 0) (fun _ _ => 0) ⟨[], [], [], []⟩ []
        = .ok { flatten_params := ([] : List ℚ)
                modelP := ([] : List Param)
                G1 := generate_gaussian_matrix3 (fun _ _ => 0) (getFlattenParam []).length 1
                G2 := generate_gaussian_matrix3 (fun _ _ => 0) (getFlattenParam []).length 1 }) ∧
    ((⟨[], [], generate_gaussian_matrix3 (fun _ _ => 0) (getFlattenParam []).length 1,
        generate_gaussian_matrix3 (fun _ _ => 0) (getFlattenParam []).length 1⟩ : SrvState3).G1
        = generate_gaussian_matrix3 (fun _ _ => 0)
            (getFlattenParam (⟨[], [], generate_gaussian_matrix3 (fun _ _ => 0)
              (getFlattenParam []).length 1, generate_gaussian_matrix3 (fun _ _ => 0)
              (getFlattenParam []).length 1⟩ : SrvState3).modelP).length 1) :=
  ⟨(avg_clients_noop_and_regen "none" 1 1 (fun _ _ => 0) (fun _ _ => 0) (fun _ _ => 0)
      (fun _ => []) ⟨[], [], []⟩ ⟨[], [], [], []⟩ []).1 (by decide),
   (avg_clients_noop_and_regen "none" 1 1 (fun _ _ => 0) (fun _ _ => 0) (fun _ _ => 0)
      (fun _ => []) ⟨[], [], []⟩ ⟨[], [], [], []⟩ []).2.1 _
      ((avg_clients_noop_and_regen "none" 1 1 (fun _ _ => 0) (fun _ _ => 0) (fun _ _ => 0)
        (fun _ => []) ⟨[], [], []⟩ ⟨[], [], [], []⟩ []).1 (by decide)),
   (avg_clients_noop_and_regen "none" 1 1 (fun _ _ => 0) (fun _ _ => 0) (fun _ _ => 0)
      (fun _ => []) ⟨[], [], []⟩ ⟨[], [], [], []⟩ []).2.2.1 (by decide),
   ((avg_clients_noop_and_regen "none" 1 1 (fun _ _ => 0) (fun _ _ => 0) (fun _ _ => 0)
      (fun _ => []) ⟨[], [], []⟩ ⟨[], [], [], []⟩ []).2.2.2 _
      ((avg_clients_noop_and_regen "none" 1 1 (fun _ _ => 0) (fun _ _ => 0) (fun _ _ => 0)
        (fun _ => []) ⟨[], [], []⟩ ⟨[], [], [], []⟩ []).2.2.1 (by decide))).1⟩
